import Mathlib

set_option maxHeartbeats 1000000

/-
  Verification of the access-control and request-scoping layer of
  `src/sentry/web/frontend/base.py`: the `Access` permission model, the
  `OrganizationMixin.get_active_organization` resolver with its session
  side effects, and the `OrganizationView` / `TeamView` / `ProjectView`
  permission hierarchy.

  Pure Python code is translated directly; the session mutation in
  `get_active_organization` is made explicit by returning the final
  session state together with event flags recording which mutations
  (write / delete) and which store fetches occurred.  External store
  lookups that live in `sentry.models` (not part of the given source)
  are modelled from the spec and marked as such in their doc comments.
-/

namespace Sentry

/-- Visibility status of an organization (`OrganizationStatus` in `sentry.models`). -/
inductive OrganizationStatus where
  | VISIBLE
  | PENDING_DELETION
  | DELETION_IN_PROGRESS
deriving DecidableEq

/-- Modelled from the spec: the role-tier numbering of `OrganizationMemberType`
(defined in `sentry.models`, not part of the given source).  OWNER is the most
privileged and numerically smallest tier; larger numbers are less privileged. -/
def OrganizationMemberType.OWNER : Nat := 0

/-- Modelled from the spec: the ADMIN tier sits between OWNER and MEMBER. -/
def OrganizationMemberType.ADMIN : Nat := 25

/-- Modelled from the spec: MEMBER is the least privileged of the three named tiers. -/
def OrganizationMemberType.MEMBER : Nat := 50

/-- The authenticated caller (`request.user`). -/
structure User where
  id : Nat
  is_superuser : Bool
  is_authenticated : Bool
deriving DecidableEq

/-- An organization row: slug, id and visibility status. -/
structure Organization where
  id : Nat
  slug : String
  status : OrganizationStatus
deriving DecidableEq

/-- A team row; belongs to exactly one organization. -/
structure Team where
  id : Nat
  organizationId : Nat
  slug : String
deriving DecidableEq

/-- A project row; belongs to one organization and has a back-reference to its
owning team (`project.team`). -/
structure Project where
  id : Nat
  organizationId : Nat
  slug : String
  team : Team
deriving DecidableEq

/-- An `OrganizationMember` row relating one user to one organization:
role tier (`type`), the global-access flag, and the explicit team set. -/
structure OrganizationMember where
  userId : Nat
  organizationId : Nat
  type : Nat
  has_global_access : Bool
  teams : List Team
deriving DecidableEq

/-- An `AuthIdentity` row: its `is_valid` predicate is evaluated against a
membership (`auth_identity.is_valid(member)` in the source). -/
structure AuthIdentity where
  is_valid : OrganizationMember → Bool

/-- The session, reduced to the single key the resolver touches
(`request.session['activeorg']`); `none` means the key is absent. -/
structure Session where
  activeorg : Option String
deriving DecidableEq

/-- An incoming request: the authenticated identity plus the session. -/
structure Request where
  user : User
  session : Session
deriving DecidableEq

/-- The external store backing the ORM lookups in the source file.  The
`team_has_access` / `project_has_access` capability functions are modelled
from the spec: `team.has_access(user, access)` and
`project.has_access(user, access)` live in `sentry.models`, outside the
given source, and are specified only as an access-check capability that
grants (or not) a required tier to an identity. -/
structure Database where
  organizations : List Organization
  members : List OrganizationMember
  authIdentities : List (Nat × AuthIdentity)
  teams : List Team
  projects : List Project
  team_has_access : Team → Nat → Option Nat → Bool
  project_has_access : Project → Nat → Option Nat → Bool

/-- `Organization.objects.get_from_cache(slug=...)`: cache-backed point lookup
by slug (`getBySlugCached` in the spec's external-interface contract). -/
def Database.get_organization_from_cache (db : Database) (slug : String) :
    Option Organization :=
  db.organizations.find? (fun o => o.slug == slug)

/-- `OrganizationMember.objects.get(user=..., organization=...)`. -/
def Database.get_organization_member (db : Database) (userId orgId : Nat) :
    Option OrganizationMember :=
  db.members.find? (fun m => m.userId == userId && m.organizationId == orgId)

/-- `AuthIdentity.objects.get(auth_provider__organization=...)`: at most one
record per organization is expected. -/
def Database.get_auth_identity (db : Database) (orgId : Nat) : Option AuthIdentity :=
  (db.authIdentities.find? (fun p => p.1 == orgId)).map (fun p => p.2)

/-- Modelled from the spec: `listAccessibleOrganizations(identity, minimumTier)`
(`Organization.objects.get_for_user` in `sentry.models`, not part of the given
source) — the ordered set of organizations the identity may access, server-side
filtered by the required tier (`type <= access`).  Per the error-handling
taxonomy, organizations that are not VISIBLE never resolve, so the accessible
set contains only VISIBLE organizations; a superuser may access every visible
organization. -/
def Database.get_for_user (db : Database) (user : User) (access : Option Nat) :
    List Organization :=
  if user.is_superuser then
    db.organizations.filter (fun o => o.status == OrganizationStatus.VISIBLE)
  else
    db.organizations.filter (fun o =>
      o.status == OrganizationStatus.VISIBLE &&
      db.members.any (fun m =>
        m.userId == user.id && m.organizationId == o.id &&
        (match access with
         | none => true
         | some a => decide (m.type ≤ a))))

/-- The concrete `Access` grant: nullable role tier (`_type`), global flag,
SSO-validity flag and explicit team set. -/
structure Access where
  type : Option Nat
  is_global : Bool
  is_sso_valid : Bool
  teams : List Team
deriving DecidableEq

/-- `Access.has_access(type)`: false if the stored tier is null, else
`self._type <= type`. -/
def Access.has_access (a : Access) (t : Nat) : Bool :=
  match a.type with
  | none => false
  | some r => decide (r ≤ t)

/-- `Access.has_team_access(team)`: false if the tier is null, true if global,
else membership in the explicit team set. -/
def Access.has_team_access (a : Access) (team : Team) : Bool :=
  match a.type with
  | none => false
  | some _ =>
    if a.is_global then true
    else a.teams.contains team

/-- Result of `Access.from_user`: either the always-denying `NoAccess`
object or a concrete `Access` grant. -/
inductive AccessResult where
  | noAccess
  | access (a : Access)
deriving DecidableEq

/-- `has_access` on either variant: `NoAccess.has_access` is constantly false. -/
def AccessResult.has_access : AccessResult → Nat → Bool
  | .noAccess, _ => false
  | .access a, t => a.has_access t

/-- `has_team_access` on either variant: `NoAccess.has_team_access` is
constantly false. -/
def AccessResult.has_team_access : AccessResult → Team → Bool
  | .noAccess, _ => false
  | .access a, t => a.has_team_access t

/-- `is_sso_valid` on either variant: the `NoAccess` class attribute is False. -/
def AccessResult.is_sso_valid : AccessResult → Bool
  | .noAccess => false
  | .access a => a.is_sso_valid

/-- `is_global` on either variant: the `NoAccess` class attribute is False. -/
def AccessResult.is_global : AccessResult → Bool
  | .noAccess => false
  | .access a => a.is_global

/-- `Access.from_member(member)`: teams are empty when the membership has
global access, else the full team set; SSO is valid when no `AuthIdentity`
exists for the member's organization, else the identity's validity predicate
decides; tier and global flag are copied from the membership. -/
def Access.from_member (db : Database) (member : OrganizationMember) : Access :=
  let teams := if member.has_global_access then [] else member.teams
  let is_sso_valid :=
    match db.get_auth_identity member.organizationId with
    | none => true
    | some auth_identity => auth_identity.is_valid member
  { type := some member.type
    is_global := member.has_global_access
    is_sso_valid := is_sso_valid
    teams := teams }

/-- The grant `Access.from_user` returns for a superuser. -/
def superuserGrant : Access :=
  { type := some OrganizationMemberType.OWNER
    is_global := true
    is_sso_valid := true
    teams := [] }

/-- `Access.from_user(user, organization)`: superusers get the OWNER/global/
sso-valid grant unconditionally; a missing organization yields `NoAccess`; a
missing membership yields a null-tier grant; otherwise delegate to
`from_member`. -/
def Access.from_user (db : Database) (user : User)
    (organization : Option Organization) : AccessResult :=
  if user.is_superuser then
    .access superuserGrant
  else
    match organization with
    | none => .noAccess
    | some org =>
      match db.get_organization_member user.id org.id with
      | none => .access { type := none, is_global := false, is_sso_valid := false, teams := [] }
      | some om => .access (Access.from_member db om)

/-- Python truthiness of the slug value at line 159 of the source
(`if active_organization is None and organization_slug:`): `None` and the
empty string are falsy. -/
def truthy : Option String → Bool
  | none => false
  | some s => s != ""

/-- Outcome of one `get_active_organization` call: the resolved organization,
the final session state, and event flags recording whether the session key was
written (line 183), whether it was deleted (line 169), and whether the
accessible-organizations set was fetched (line 154). -/
structure ResolveResult where
  result : Option Organization
  session : Session
  wrote : Bool
  deleted : Bool
  fetched : Bool
deriving DecidableEq

/-- Lines 182-185 of the source: resolution succeeded with `o`; write
`session['activeorg']` iff the resolved slug differs from the (current)
stored value. -/
def writeBack (o : Organization) (session : Session)
    (fetched deleted : Bool) : ResolveResult :=
  if some o.slug = session.activeorg then
    { result := some o, session := session, wrote := false
      deleted := deleted, fetched := fetched }
  else
    { result := some o, session := { activeorg := some o.slug }, wrote := true
      deleted := deleted, fetched := fetched }

/-- Lines 172-180 of the source, reached with no organization resolved and the
accessible set fetched: an explicit slug returns none; an implicit one defaults
to the first accessible organization, if any. -/
def defaultStep (organizations : List Organization) (session : Session)
    (is_implicit deleted : Bool) : ResolveResult :=
  if is_implicit then
    match organizations.head? with
    | some o => writeBack o session true deleted
    | none =>
      { result := none, session := session, wrote := false
        deleted := deleted, fetched := true }
  else
    { result := none, session := session, wrote := false
      deleted := deleted, fetched := true }

/-- Lines 153-180 of the source: fetch the accessible organizations, search
them for a truthy slug (clearing the stale session key when an implicit slug
fails to match), then fall back to the default step. -/
def resolveFromList (organizations : List Organization) (session : Session)
    (is_implicit : Bool) (oslug : Option String) : ResolveResult :=
  match oslug with
  | some s =>
    if s = "" then defaultStep organizations session is_implicit false
    else
      match organizations.find? (fun o => o.slug == s) with
      | some o => writeBack o session true false
      | none =>
        if is_implicit then
          defaultStep organizations { activeorg := none } true true
        else
          defaultStep organizations session false false
  | none => defaultStep organizations session is_implicit false

/-- `OrganizationMixin.get_active_organization(request, organization_slug,
access)`: with a slug (explicit from the path, or implicit from the session)
and a superuser, the direct cache lookup either resolves (skipping the
accessible-set fetch) or returns none to the caller at once; otherwise the
accessible set is fetched and searched. -/
def get_active_organization (db : Database) (request : Request)
    (slugArg : Option String) (access : Option Nat) : ResolveResult :=
  let is_implicit := slugArg.isNone
  let oslug := if is_implicit then request.session.activeorg else slugArg
  match oslug, request.user.is_superuser with
  | some s, true =>
    (match db.get_organization_from_cache s with
     | some o =>
       if o.status = OrganizationStatus.VISIBLE then
         writeBack o request.session false false
       else
         { result := none, session := request.session, wrote := false
           deleted := false, fetched := false }
     | none =>
       { result := none, session := request.session, wrote := false
         deleted := false, fetched := false })
  | some s, false =>
    resolveFromList (db.get_for_user request.user access)
      request.session is_implicit (some s)
  | none, _ =>
    resolveFromList (db.get_for_user request.user access)
      request.session is_implicit none

/-- `OrganizationMixin.get_active_team(request, organization, team_slug,
access)`: cache lookup by (slug, organization); non-superusers additionally
need the team's access-check capability to grant the required tier. -/
def get_active_team (db : Database) (request : Request)
    (organization : Organization) (team_slug : String)
    (access : Option Nat) : Option Team :=
  match db.teams.find? (fun t =>
      t.slug == team_slug && t.organizationId == organization.id) with
  | none => none
  | some team =>
    if !request.user.is_superuser && !db.team_has_access team request.user.id access then
      none
    else
      some team

/-- `OrganizationMixin.get_active_project(request, organization, project_slug,
access)`: same pattern as `get_active_team`, against the project store. -/
def get_active_project (db : Database) (request : Request)
    (organization : Organization) (project_slug : String)
    (access : Option Nat) : Option Project :=
  match db.projects.find? (fun p =>
      p.slug == project_slug && p.organizationId == organization.id) with
  | none => none
  | some project =>
    if !request.user.is_superuser && !db.project_has_access project request.user.id access then
      none
    else
      some project

/-- `OrganizationView.convert_args`: resolves the active organization passing
the endpoint's `required_access` into the resolver; the result becomes the
`organization` keyword argument. -/
def OrganizationView.convert_args (db : Database) (request : Request)
    (organization_slug : Option String) (required_access : Option Nat) :
    Option Organization :=
  (get_active_organization db request organization_slug required_access).result

/-- The keyword arguments `TeamView.convert_args` injects into the dispatch. -/
structure TeamScope where
  organization : Option Organization
  team : Option Team

/-- `TeamView.convert_args`: resolves the organization with `access` left at
its default (`None`), then resolves the team with the endpoint's
`required_access` when the organization resolved. -/
def TeamView.convert_args (db : Database) (request : Request)
    (organization_slug team_slug : String) (required_access : Option Nat) :
    TeamScope :=
  match (get_active_organization db request (some organization_slug) none).result with
  | some org =>
    { organization := some org
      team := get_active_team db request org team_slug required_access }
  | none => { organization := none, team := none }

/-- The keyword arguments `ProjectView.convert_args` injects into the dispatch. -/
structure ProjectScope where
  organization : Option Organization
  team : Option Team
  project : Option Project

/-- `ProjectView.convert_args`: resolves the organization with `access` left at
its default (`None`), resolves the project with the endpoint's
`required_access`, and sets the team to the resolved project's owning team
(none when the project is none). -/
def ProjectView.convert_args (db : Database) (request : Request)
    (organization_slug project_slug : String) (required_access : Option Nat) :
    ProjectScope :=
  let active_organization :=
    (get_active_organization db request (some organization_slug) none).result
  let active_project :=
    match active_organization with
    | some org => get_active_project db request org project_slug required_access
    | none => none
  let active_team :=
    match active_project with
    | some p => some p.team
    | none => none
  { organization := active_organization
    team := active_team
    project := active_project }

/-- `OrganizationView.has_permission(request, organization)`: the organization
must have resolved, and if the endpoint requires SSO validity the grant must be
SSO-valid. -/
def OrganizationView.has_permission (organization : Option Organization)
    (access : AccessResult) (valid_sso_required : Bool) : Bool :=
  match organization with
  | none => false
  | some _ =>
    if valid_sso_required && !access.is_sso_valid then false
    else true

/-- `TeamView.has_permission(request, organization, team)`: the
organization-level check plus a resolved team. -/
def TeamView.has_permission (organization : Option Organization)
    (team : Option Team) (access : AccessResult)
    (valid_sso_required : Bool) : Bool :=
  OrganizationView.has_permission organization access valid_sso_required
    && team.isSome

/-- `ProjectView.has_permission(request, organization, team, project)`: the
team-level check plus a resolved project. -/
def ProjectView.has_permission (organization : Option Organization)
    (team : Option Team) (project : Option Project) (access : AccessResult)
    (valid_sso_required : Bool) : Bool :=
  TeamView.has_permission organization team access valid_sso_required
    && project.isSome

/-- The possible redirect destinations of
`OrganizationView.handle_permission_required`. -/
inductive DenialRedirect where
  | ssoLinkRedirect (orgSlug : String)
  | noPermissionRedirect
deriving DecidableEq

/-- The full denial response: the redirect produced, plus whether the
`ERR_MISSING_SSO_LINK` error message was enqueued via `messages.add_message`. -/
structure DenialOutcome where
  response : DenialRedirect
  messageEnqueued : Bool
deriving DecidableEq

/-- `OrganizationView.handle_permission_required(request, organization)`:
when the organization resolved, the user is authenticated, the endpoint
requires SSO validity and the grant is not SSO-valid, enqueue the SSO-link
error message and redirect to the SSO-link flow for the organization;
otherwise redirect to the generic no-permission destination. -/
def OrganizationView.handle_permission_required (request : Request)
    (organization : Option Organization) (access : AccessResult)
    (valid_sso_required : Bool) : DenialOutcome :=
  match organization with
  | some org =>
    if request.user.is_authenticated && valid_sso_required && !access.is_sso_valid then
      { response := .ssoLinkRedirect org.slug, messageEnqueued := true }
    else
      { response := .noPermissionRedirect, messageEnqueued := false }
  | none => { response := .noPermissionRedirect, messageEnqueued := false }

/-- Database well-formedness used by the idempotence claim: organization slugs
are unique (the slug is a unique key). -/
def slugsUnique (db : Database) : Prop :=
  (db.organizations.map (fun o => o.slug)).Nodup

/-- A concrete store with one visible organization `acme`, used to instantiate
the universally quantified claims. -/
def dbAcme : Database :=
  { organizations := [⟨1, "acme", OrganizationStatus.VISIBLE⟩]
    members := []
    authIdentities := []
    teams := []
    projects := []
    team_has_access := fun _ _ _ => true
    project_has_access := fun _ _ _ => true }

/-- A superuser request whose session holds the stale slug `ghost`. -/
def reqGhost : Request :=
  { user := ⟨1, true, true⟩, session := ⟨some "ghost"⟩ }

/-- A store for the tier-filtering claim: a single visible organization whose
only membership is at MEMBER tier (50), less privileged than ADMIN (25). -/
def dbTier : Database :=
  { organizations := [⟨1, "acme", OrganizationStatus.VISIBLE⟩]
    members := [⟨2, 1, OrganizationMemberType.MEMBER, true, []⟩]
    authIdentities := []
    teams := [⟨3, 1, "t"⟩]
    projects := []
    team_has_access := fun _ _ _ => true
    project_has_access := fun _ _ _ => true }

/-- The non-superuser member request used with `dbTier`. -/
def reqMember : Request :=
  { user := ⟨2, false, true⟩, session := ⟨none⟩ }

end Sentry

namespace Sentry

/-- C2: `has_access` returns false on a null tier, and otherwise grants access
exactly when the stored tier is numerically at or below the required tier; the
tier numbering makes OWNER the most privileged (numerically smallest) tier. -/
theorem claim_C2 : ∀ (a : Access) (t : Nat),
    (a.type = none → a.has_access t = false) ∧
    (∀ r, a.type = some r → (a.has_access t = true ↔ r ≤ t)) ∧
    OrganizationMemberType.OWNER < OrganizationMemberType.ADMIN ∧
    OrganizationMemberType.ADMIN < OrganizationMemberType.MEMBER := by
  intro a t
  refine ⟨?_, ?_, by decide, by decide⟩
  · intro h
    simp [Access.has_access, h]
  · intro r h
    simp [Access.has_access, h]

theorem claim_C2_witness :
    (Access.mk (some OrganizationMemberType.OWNER) true true []).has_access
      OrganizationMemberType.ADMIN = true :=
  ((claim_C2 ⟨some OrganizationMemberType.OWNER, true, true, []⟩
      OrganizationMemberType.ADMIN).2.1 OrganizationMemberType.OWNER rfl).mpr
    (by decide)

/-- C3: for a superuser, `Access.from_user` returns the OWNER / global /
sso-valid grant, independent of the database contents and of which (if any)
organization is passed — it never consults the membership or AuthIdentity
stores. -/
theorem claim_C3 : ∀ (db db' : Database) (user : User)
    (org org' : Option Organization),
    user.is_superuser = true →
    Access.from_user db user org = AccessResult.access superuserGrant ∧
    superuserGrant.type = some OrganizationMemberType.OWNER ∧
    superuserGrant.is_global = true ∧
    superuserGrant.is_sso_valid = true ∧
    Access.from_user db user org = Access.from_user db' user org' := by
  intro db db' user org org' h
  simp [Access.from_user, h, superuserGrant]

theorem claim_C3_witness :
    Access.from_user
        ⟨[], [], [], [], [], fun _ _ _ => true, fun _ _ _ => true⟩
        ⟨7, true, true⟩ none
      = AccessResult.access superuserGrant :=
  (claim_C3 ⟨[], [], [], [], [], fun _ _ _ => true, fun _ _ _ => true⟩
    ⟨[], [], [], [], [], fun _ _ _ => true, fun _ _ _ => true⟩
    ⟨7, true, true⟩ none none rfl).1

/-- C5: `Access.from_member` copies tier and global flag from the membership,
grants the empty team set under global access and the membership's full team
set otherwise, and sets `is_sso_valid` to true when no AuthIdentity record
exists for the membership's organization, else to the AuthIdentity's validity
predicate evaluated at the membership. -/
theorem claim_C5 : ∀ (db : Database) (member : OrganizationMember),
    (Access.from_member db member).type = some member.type ∧
    (Access.from_member db member).is_global = member.has_global_access ∧
    (Access.from_member db member).teams
      = (if member.has_global_access then [] else member.teams) ∧
    ((∀ p ∈ db.authIdentities, p.1 ≠ member.organizationId) →
      (Access.from_member db member).is_sso_valid = true) ∧
    (∀ ai, db.get_auth_identity member.organizationId = some ai →
      (Access.from_member db member).is_sso_valid = ai.is_valid member) := by
  intro db member
  refine ⟨rfl, rfl, rfl, ?_, ?_⟩
  · intro h
    have hfind : db.authIdentities.find? (fun p => p.1 == member.organizationId) = none := by
      rw [List.find?_eq_none]
      intro p hp
      simpa using h p hp
    simp [Access.from_member, Database.get_auth_identity, hfind]
  · intro ai hai
    simp [Access.from_member, hai]

theorem claim_C5_witness :
    (Access.from_member
        ⟨[], [], [], [], [], fun _ _ _ => true, fun _ _ _ => true⟩
        ⟨1, 2, 50, false, []⟩).is_sso_valid = true :=
  (claim_C5 ⟨[], [], [], [], [], fun _ _ _ => true, fun _ _ _ => true⟩
      ⟨1, 2, 50, false, []⟩).2.2.2.1 (by intro p hp; simp at hp)

/-- C6: a null-tier grant denies every `has_access` / `has_team_access` query;
every grant the resolver actually constructs with `is_global = true` grants
`has_team_access` for every team; in particular a globally-scoped membership
grants team access everywhere regardless of its explicit team set. -/
theorem claim_C6 :
    (∀ (a : Access) (t : Nat) (team : Team), a.type = none →
      a.has_access t = false ∧ a.has_team_access team = false) ∧
    (∀ (db : Database) (u : User) (o : Option Organization) (g : Access),
      Access.from_user db u o = AccessResult.access g →
      g.is_global = true → ∀ team, g.has_team_access team = true) ∧
    (∀ (db : Database) (m : OrganizationMember), m.has_global_access = true →
      ∀ team, (Access.from_member db m).has_team_access team = true) := by
  refine ⟨?_, ?_, ?_⟩
  · intro a t team h
    constructor
    · simp [Access.has_access, h]
    · simp [Access.has_team_access, h]
  · intro db u o g hg hglob team
    by_cases hsu : u.is_superuser = true
    · simp only [Access.from_user, hsu, if_pos] at hg
      cases hg
      simp [superuserGrant, Access.has_team_access]
    · simp only [Access.from_user, hsu] at hg
      cases o with
      | none => simp at hg
      | some org =>
        simp only [Bool.false_eq_true, if_false] at hg
        cases hom : db.get_organization_member u.id org.id with
        | none =>
          rw [hom] at hg
          cases hg
          simp at hglob
        | some om =>
          rw [hom] at hg
          cases hg
          simp only [Access.from_member] at hglob
          simp [Access.from_member, Access.has_team_access, hglob]
  · intro db m hm team
    simp [Access.from_member, Access.has_team_access, hm]

theorem claim_C6_witness :
    (Access.mk none true true [⟨1, 1, "t"⟩]).has_team_access ⟨1, 1, "t"⟩ = false :=
  (claim_C6.1 ⟨none, true, true, [⟨1, 1, "t"⟩]⟩ 0 ⟨1, 1, "t"⟩ rfl).2

/-- C1 counterexample: a superuser with the implicit (session-derived) slug
`ghost` whose direct cache lookup finds nothing.  The claim says the resolver
fails the branch and falls through to fetching the accessible-organizations
set; in fact the call returns none to the caller at once without performing
the fetch, even though the accessible set is non-empty and its first element
would have been the fall-through default. -/
theorem claim_C1_counterexample :
    reqGhost.user.is_superuser = true ∧
    reqGhost.session.activeorg = some "ghost" ∧
    dbAcme.get_organization_from_cache "ghost" = none ∧
    (get_active_organization dbAcme reqGhost none none).fetched = false ∧
    (get_active_organization dbAcme reqGhost none none).result = none ∧
    (dbAcme.get_for_user reqGhost.user none).head?
      = some ⟨1, "acme", OrganizationStatus.VISIBLE⟩ := by
  decide

/-- C1 (amended): for a superuser with a slug (explicit or implicit) whose
direct cache lookup finds no organization or a non-VISIBLE one,
`get_active_organization` returns none to the caller immediately: it never
fetches the accessible-organizations set and leaves the session unchanged. -/
theorem claim_C1_amended : ∀ (db : Database) (request : Request)
    (slugArg : Option String) (access : Option Nat) (s : String),
    (if slugArg.isNone then request.session.activeorg else slugArg) = some s →
    request.user.is_superuser = true →
    (∀ o, db.get_organization_from_cache s = some o →
      o.status ≠ OrganizationStatus.VISIBLE) →
    get_active_organization db request slugArg access =
      { result := none, session := request.session, wrote := false
        deleted := false, fetched := false } := by
  intro db request slugArg access s hs hsu hfail
  cases slugArg with
  | none =>
    simp only [Option.isNone_none, if_pos] at hs
    cases hc : db.get_organization_from_cache s with
    | none => simp [get_active_organization, hs, hsu, hc]
    | some o =>
      have hnv := hfail o hc
      simp [get_active_organization, hs, hsu, hc, hnv]
  | some s0 =>
    simp only [Option.isNone_some, Bool.false_eq_true, if_false, Option.some.injEq] at hs
    subst hs
    cases hc : db.get_organization_from_cache s0 with
    | none => simp [get_active_organization, hsu, hc]
    | some o =>
      have hnv := hfail o hc
      simp [get_active_organization, hsu, hc, hnv]

theorem claim_C1_witness :
    get_active_organization dbAcme reqGhost none none =
      { result := none, session := reqGhost.session, wrote := false
        deleted := false, fetched := false } :=
  claim_C1_amended dbAcme reqGhost none none "ghost" rfl rfl
    (fun o h => by
      have hn : dbAcme.get_organization_from_cache "ghost" = none := by decide
      rw [hn] at h
      cases h)

/-- C7: with the keyword arguments produced by `ProjectView.convert_args`, the
project-level permission check holds exactly when the organization-level check
holds and the project resolved; the team in scope is always the resolved
project's owning team (none when the project is none). -/
theorem claim_C7 : ∀ (db : Database) (request : Request)
    (organization_slug project_slug : String) (required_access : Option Nat)
    (access : AccessResult) (valid_sso_required : Bool),
    ProjectView.has_permission
        (ProjectView.convert_args db request organization_slug project_slug required_access).organization
        (ProjectView.convert_args db request organization_slug project_slug required_access).team
        (ProjectView.convert_args db request organization_slug project_slug required_access).project
        access valid_sso_required
      = (OrganizationView.has_permission
            (ProjectView.convert_args db request organization_slug project_slug required_access).organization
            access valid_sso_required
          && (ProjectView.convert_args db request organization_slug project_slug required_access).project.isSome) ∧
    (ProjectView.convert_args db request organization_slug project_slug required_access).team
      = (ProjectView.convert_args db request organization_slug project_slug required_access).project.map
          (fun p => p.team) := by
  intro db request oslug pslug ra access vsr
  simp only [ProjectView.convert_args]
  cases horg : (get_active_organization db request (some oslug) none).result with
  | none =>
    simp [horg, ProjectView.has_permission, TeamView.has_permission,
      OrganizationView.has_permission]
  | some org =>
    cases hp : get_active_project db request org pslug ra with
    | none =>
      simp [horg, hp, ProjectView.has_permission, TeamView.has_permission,
        OrganizationView.has_permission]
    | some p =>
      simp [horg, hp, ProjectView.has_permission, TeamView.has_permission,
        OrganizationView.has_permission]

/-- C8: a permission denial enqueues the SSO-link error message exactly when
the organization resolved, the user is authenticated, the endpoint requires
SSO validity, and the grant is not SSO-valid; in that case the response is the
SSO-link redirect for the resolved organization, and in every other denial it
is the generic no-permission redirect with no message. -/
theorem claim_C8 : ∀ (request : Request) (organization : Option Organization)
    (access : AccessResult) (valid_sso_required : Bool),
    ((OrganizationView.handle_permission_required request organization access
        valid_sso_required).messageEnqueued = true ↔
      (organization.isSome = true ∧ request.user.is_authenticated = true ∧
        valid_sso_required = true ∧ access.is_sso_valid = false)) ∧
    (∀ org, organization = some org →
      (OrganizationView.handle_permission_required request organization access
          valid_sso_required).messageEnqueued = true →
      (OrganizationView.handle_permission_required request organization access
          valid_sso_required).response = DenialRedirect.ssoLinkRedirect org.slug) ∧
    ((OrganizationView.handle_permission_required request organization access
        valid_sso_required).messageEnqueued = false →
      OrganizationView.handle_permission_required request organization access
          valid_sso_required =
        { response := DenialRedirect.noPermissionRedirect, messageEnqueued := false }) := by
  intro request organization access vsr
  cases organization with
  | none => simp [OrganizationView.handle_permission_required]
  | some org =>
    simp only [OrganizationView.handle_permission_required]
    by_cases h : (request.user.is_authenticated && vsr && !access.is_sso_valid) = true
    · have h' := h
      simp only [Bool.and_eq_true, Bool.not_eq_true'] at h'
      rw [if_pos h]
      refine ⟨?_, ?_, ?_⟩
      · simp [h'.1.1, h'.1.2, h'.2]
      · intro o ho _
        cases ho
        rfl
      · intro hfalse
        simp at hfalse
    · rw [if_neg h]
      refine ⟨?_, ?_, ?_⟩
      · constructor
        · intro hx
          simp at hx
        · rintro ⟨_, ha, hv, hs⟩
          exact absurd (by simp [ha, hv, hs]) h
      · intro o _ hmsg
        simp at hmsg
      · intro _
        rfl

theorem claim_C8_witness :
    (OrganizationView.handle_permission_required reqMember
        (some ⟨1, "acme", OrganizationStatus.VISIBLE⟩)
        AccessResult.noAccess true).messageEnqueued = true :=
  ((claim_C8 reqMember (some ⟨1, "acme", OrganizationStatus.VISIBLE⟩)
      AccessResult.noAccess true).1).mpr (by decide)

/-- C10: team- and project-level endpoints resolve the active organization
without the endpoint's required tier (the resolver's `access` stays `None`, so
the accessible-organizations fetch is unfiltered by tier), while their team /
project resolution does receive `required_access`; only organization-level
endpoints pass `required_access` into organization resolution.  A concrete
store discriminates: at required tier ADMIN an organization-level endpoint
fails to resolve the MEMBER-tier caller's organization, while a team-level
endpoint on the same store resolves it. -/
theorem claim_C10 :
    (∀ (db : Database) (request : Request) (oslug tslug : String)
        (r1 r2 : Option Nat),
      (TeamView.convert_args db request oslug tslug r1).organization
        = (TeamView.convert_args db request oslug tslug r2).organization) ∧
    (∀ (db : Database) (request : Request) (oslug pslug : String)
        (r1 r2 : Option Nat),
      (ProjectView.convert_args db request oslug pslug r1).organization
        = (ProjectView.convert_args db request oslug pslug r2).organization) ∧
    (∀ (db : Database) (request : Request) (oslug tslug : String) (r : Option Nat),
      (TeamView.convert_args db request oslug tslug r).organization
        = (get_active_organization db request (some oslug) none).result) ∧
    (∀ (db : Database) (request : Request) (oslug : Option String) (r : Option Nat),
      OrganizationView.convert_args db request oslug r
        = (get_active_organization db request oslug r).result) ∧
    (∀ (db : Database) (request : Request) (oslug tslug : String) (r : Option Nat)
        (org : Organization),
      (get_active_organization db request (some oslug) none).result = some org →
      (TeamView.convert_args db request oslug tslug r).team
        = get_active_team db request org tslug r) ∧
    OrganizationView.convert_args dbTier reqMember (some "acme")
        (some OrganizationMemberType.ADMIN) = none ∧
    (TeamView.convert_args dbTier reqMember "acme" "t"
        (some OrganizationMemberType.ADMIN)).organization
      = some ⟨1, "acme", OrganizationStatus.VISIBLE⟩ := by
  refine ⟨?_, ?_, ?_, ?_, ?_, by decide, by decide⟩
  · intro db request oslug tslug r1 r2
    simp only [TeamView.convert_args]
    cases h : (get_active_organization db request (some oslug) none).result <;> simp [h]
  · intro db request oslug pslug r1 r2
    simp only [ProjectView.convert_args]
  · intro db request oslug tslug r
    simp only [TeamView.convert_args]
    cases h : (get_active_organization db request (some oslug) none).result <;> simp [h]
  · intro db request oslug r
    rfl
  · intro db request oslug tslug r org horg
    simp only [TeamView.convert_args, horg]

theorem claim_C10_witness :
    (TeamView.convert_args dbTier reqMember "acme" "t" none).team
      = get_active_team dbTier reqMember ⟨1, "acme", OrganizationStatus.VISIBLE⟩
          "t" none :=
  claim_C10.2.2.2.2.1 dbTier reqMember "acme" "t" none
    ⟨1, "acme", OrganizationStatus.VISIBLE⟩ (by decide)

lemma head?_mem {l : List Organization} {o : Organization}
    (h : l.head? = some o) : o ∈ l := by
  cases l with
  | nil => cases h
  | cons a t =>
    simp only [List.head?_cons, Option.some.injEq] at h
    subst h
    exact List.mem_cons_self a t

lemma find?_none_slug {l : List Organization} {s : String}
    (h : l.find? (fun o => o.slug == s) = none) {o : Organization}
    (ho : o ∈ l) : o.slug ≠ s := by
  have := List.find?_eq_none.mp h o ho
  simpa using this

lemma find?_some_slug {l : List Organization} {s : String} {o : Organization}
    (h : l.find? (fun o => o.slug == s) = some o) : o.slug = s := by
  have := List.find?_some h
  simpa using this

/-- C4: the session key is written iff resolution succeeds with a slug that
differs from the stored value; a failed resolution never writes; after a write
the session holds the resolved slug; the key is deleted exactly when an
implicit (session-derived) truthy slug fails to match the fetched accessible
set; and with neither a write nor a deletion the session is unchanged. -/
theorem claim_C4 : ∀ (db : Database) (request : Request)
    (slugArg : Option String) (access : Option Nat),
    ((get_active_organization db request slugArg access).wrote = true ↔
      (∃ o, (get_active_organization db request slugArg access).result = some o ∧
        some o.slug ≠ request.session.activeorg)) ∧
    ((get_active_organization db request slugArg access).result = none →
      (get_active_organization db request slugArg access).wrote = false) ∧
    ((get_active_organization db request slugArg access).wrote = true →
      ∃ o, (get_active_organization db request slugArg access).result = some o ∧
        (get_active_organization db request slugArg access).session.activeorg
          = some o.slug) ∧
    ((get_active_organization db request slugArg access).deleted = true ↔
      (slugArg = none ∧
        (get_active_organization db request slugArg access).fetched = true ∧
        ∃ s, request.session.activeorg = some s ∧ s ≠ "" ∧
          (db.get_for_user request.user access).find? (fun o => o.slug == s)
            = none)) ∧
    ((get_active_organization db request slugArg access).wrote = false ∧
        (get_active_organization db request slugArg access).deleted = false →
      (get_active_organization db request slugArg access).session
        = request.session) := by
  intro db request slugArg access
  cases slugArg with
  | some s0 =>
    by_cases hsu : request.user.is_superuser = true
    · cases hc : db.get_organization_from_cache s0 with
      | some o =>
        by_cases hv : o.status = OrganizationStatus.VISIBLE
        · simp only [get_active_organization, Option.isNone_some,
            Bool.false_eq_true, if_false, hsu, hc, hv, if_pos]
          unfold writeBack
          split
          next h =>
            refine ⟨by simp [h], by simp, by simp, by simp, by simp⟩
          next h =>
            refine ⟨?_, by simp, ?_, by simp, by simp⟩
            · simp only [true_iff]
              exact ⟨o, rfl, h⟩
            · intro _
              exact ⟨o, rfl, rfl⟩
        · simp [get_active_organization, hsu, hc, hv]
      | none =>
        simp [get_active_organization, hsu, hc]
    · have hsu' : request.user.is_superuser = false := by simpa using hsu
      simp only [get_active_organization, Option.isNone_some,
        Bool.false_eq_true, if_false, hsu', resolveFromList]
      by_cases hse : s0 = ""
      · subst hse
        simp [defaultStep]
      · rw [if_neg hse]
        cases hf : (db.get_for_user request.user access).find?
            (fun o => o.slug == s0) with
        | some o =>
          simp only [hf]
          unfold writeBack
          split
          next h =>
            refine ⟨by simp [h], by simp, by simp, by simp, by simp⟩
          next h =>
            refine ⟨?_, by simp, ?_, by simp, by simp⟩
            · simp only [true_iff]
              exact ⟨o, rfl, h⟩
            · intro _
              exact ⟨o, rfl, rfl⟩
        | none =>
          simp [hf, defaultStep]
  | none =>
    cases hv : request.session.activeorg with
    | none =>
      simp only [get_active_organization, Option.isNone_none, if_pos, hv,
        resolveFromList, defaultStep, if_pos]
      cases hh : (db.get_for_user request.user access).head? with
      | some o =>
        simp only [hh]
        unfold writeBack
        rw [hv]
        split
        next h => exact Option.noConfusion h
        next h =>
          refine ⟨?_, by simp, ?_, by simp [hv], by simp⟩
          · simp only [eq_self_iff_true, true_iff]
            exact ⟨o, rfl, by simp [hv]⟩
          · intro _
            exact ⟨o, rfl, rfl⟩
      | none =>
        simp [hh, hv]
    | some s =>
      by_cases hsu : request.user.is_superuser = true
      · cases hc : db.get_organization_from_cache s with
        | some o =>
          by_cases hvis : o.status = OrganizationStatus.VISIBLE
          · simp only [get_active_organization, Option.isNone_none, if_pos,
              hv, hsu, hc, hvis, if_pos]
            unfold writeBack
            rw [hv]
            split
            next h =>
              have ho : o.slug = s := Option.some.inj h
              refine ⟨by simp [ho, hv], by simp, by simp, by simp [hv], by simp⟩
            next h =>
              refine ⟨?_, by simp, ?_, by simp [hv], by simp⟩
              · simp only [eq_self_iff_true, true_iff]
                exact ⟨o, rfl, h⟩
              · intro _
                exact ⟨o, rfl, rfl⟩
          · simp [get_active_organization, hv, hsu, hc, hvis]
        | none =>
          simp [get_active_organization, hv, hsu, hc]
      · have hsu' : request.user.is_superuser = false := by simpa using hsu
        simp only [get_active_organization, Option.isNone_none, if_pos, hv,
          hsu', resolveFromList]
        by_cases hse : s = ""
        · subst hse
          simp only [if_pos rfl, defaultStep, if_pos]
          cases hh : (db.get_for_user request.user access).head? with
          | some o =>
            simp only [hh]
            unfold writeBack
            rw [hv]
            split
            next h =>
              have ho : o.slug = "" := Option.some.inj h
              refine ⟨by simp [ho, hv], by simp, by simp, by simp [hv], by simp⟩
            next h =>
              refine ⟨?_, by simp, ?_, by simp [hv], by simp⟩
              · simp only [eq_self_iff_true, true_iff]
                exact ⟨o, rfl, h⟩
              · intro _
                exact ⟨o, rfl, rfl⟩
          | none =>
            simp [hh, hv]
        · rw [if_neg hse]
          cases hf : (db.get_for_user request.user access).find?
              (fun o => o.slug == s) with
          | some o =>
            simp only [hf]
            unfold writeBack
            rw [hv]
            split
            next h =>
              have ho : o.slug = s := Option.some.inj h
              refine ⟨by simp [ho, hv], by simp, by simp, ?_, by simp⟩
              refine ⟨fun hfalse => by simp at hfalse, ?_⟩
              rintro ⟨-, -, s', hs', -, hfind⟩
              obtain rfl : s = s' := Option.some.inj hs'
              rw [hf] at hfind
              exact Option.noConfusion hfind
            next h =>
              refine ⟨?_, by simp, ?_, ?_, by simp⟩
              · simp only [eq_self_iff_true, true_iff]
                exact ⟨o, rfl, h⟩
              · intro _
                exact ⟨o, rfl, rfl⟩
              · refine ⟨fun hfalse => by simp at hfalse, ?_⟩
                rintro ⟨-, -, s', hs', -, hfind⟩
                obtain rfl : s = s' := Option.some.inj hs'
                rw [hf] at hfind
                exact Option.noConfusion hfind
          | none =>
            simp only [hf, defaultStep, if_pos]
            cases hh : (db.get_for_user request.user access).head? with
            | some o =>
              have homem : o ∈ db.get_for_user request.user access := head?_mem hh
              have hons : o.slug ≠ s := find?_none_slug hf homem
              simp only [hh]
              unfold writeBack
              split
              next h => exact Option.noConfusion h
              next h =>
                refine ⟨?_, by simp, ?_, ?_, by simp⟩
                · simp only [eq_self_iff_true, true_iff]
                  refine ⟨o, rfl, ?_⟩
                  intro hcon
                  exact hons (by simpa using hcon)
                · intro _
                  exact ⟨o, rfl, rfl⟩
                · exact iff_of_true (by simp) ⟨by simp, by simp, s, by simp, hse, hf⟩
            | none =>
              simp only [hh]
              refine ⟨by simp, by simp, by simp, ?_, by simp⟩
              exact iff_of_true (by simp) ⟨by simp, by simp, s, by simp, hse, hf⟩

lemma cache_some_slug {db : Database} {s : String} {o : Organization}
    (h : db.get_organization_from_cache s = some o) : o.slug = s := by
  unfold Database.get_organization_from_cache at h
  exact find?_some_slug h

lemma get_for_user_mem {db : Database} {user : User} {access : Option Nat}
    {o : Organization} (h : o ∈ db.get_for_user user access) :
    o ∈ db.organizations ∧ o.status = OrganizationStatus.VISIBLE := by
  unfold Database.get_for_user at h
  split at h
  · rw [List.mem_filter] at h
    exact ⟨h.1, by simpa using h.2⟩
  · rw [List.mem_filter] at h
    refine ⟨h.1, ?_⟩
    have h2 := h.2
    simp only [Bool.and_eq_true, beq_iff_eq] at h2
    exact h2.1

lemma get_for_user_slug_nodup {db : Database} (user : User) (access : Option Nat)
    (h : slugsUnique db) :
    ((db.get_for_user user access).map (fun o => o.slug)).Nodup := by
  unfold slugsUnique at h
  unfold Database.get_for_user
  split
  · exact List.Nodup.sublist
      (List.Sublist.map (fun (o : Organization) => o.slug)
        (List.filter_sublist db.organizations)) h
  · exact List.Nodup.sublist
      (List.Sublist.map (fun (o : Organization) => o.slug)
        (List.filter_sublist db.organizations)) h

lemma find_slug_of_mem : ∀ (l : List Organization),
    ((l.map (fun o => o.slug)).Nodup) → ∀ {o : Organization}, o ∈ l →
    l.find? (fun x => x.slug == o.slug) = some o := by
  intro l
  induction l with
  | nil =>
    intro _ o hm
    cases hm
  | cons a t ih =>
    intro hnd o hm
    rw [List.map_cons, List.nodup_cons] at hnd
    rcases List.mem_cons.mp hm with rfl | hmem
    · exact List.find?_cons_of_pos t (by simp)
    · have hne : ¬((fun x => x.slug == o.slug) a = true) := by
        simp only [beq_iff_eq]
        intro hcon
        exact hnd.1 (hcon ▸ List.mem_map_of_mem (fun o => o.slug) hmem)
      have hstep : List.find? (fun x => x.slug == o.slug) (a :: t)
          = List.find? (fun x => x.slug == o.slug) t :=
        List.find?_cons_of_neg t hne
      rw [hstep]
      exact ih hnd.2 hmem

/-- C9: `get_active_organization` is idempotent — a second call with the
session state left by the first call (and the same path slug, identity and
store) resolves the same organization and performs no session mutation. -/
theorem claim_C9 : ∀ (db : Database) (request : Request)
    (slugArg : Option String) (access : Option Nat),
    slugsUnique db →
    ((get_active_organization db
        ⟨request.user, (get_active_organization db request slugArg access).session⟩
        slugArg access).result
      = (get_active_organization db request slugArg access).result) ∧
    ((get_active_organization db
        ⟨request.user, (get_active_organization db request slugArg access).session⟩
        slugArg access).wrote = false) ∧
    ((get_active_organization db
        ⟨request.user, (get_active_organization db request slugArg access).session⟩
        slugArg access).deleted = false) ∧
    ((get_active_organization db
        ⟨request.user, (get_active_organization db request slugArg access).session⟩
        slugArg access).session
      = (get_active_organization db request slugArg access).session) := by
  intro db request slugArg access hnd
  cases slugArg with
  | some s0 =>
    by_cases hsu : request.user.is_superuser = true
    · cases hc : db.get_organization_from_cache s0 with
      | some o =>
        by_cases hvis : o.status = OrganizationStatus.VISIBLE
        · by_cases hw : some o.slug = request.session.activeorg
          · have h1 : get_active_organization db request (some s0) access
                = ⟨some o, request.session, false, false, false⟩ := by
              simp only [get_active_organization, Option.isNone_some,
                Bool.false_eq_true, if_false, hsu, hc]
              rw [if_pos hvis]
              unfold writeBack
              rw [if_pos hw]
            have h2 : get_active_organization db
                ⟨request.user, (get_active_organization db request (some s0) access).session⟩
                (some s0) access
                = ⟨some o, request.session, false, false, false⟩ := by
              rw [h1]
              show get_active_organization db request (some s0) access = _
              exact h1
            rw [h2, h1]
            exact ⟨rfl, rfl, rfl, rfl⟩
          · have h1 : get_active_organization db request (some s0) access
                = ⟨some o, ⟨some o.slug⟩, true, false, false⟩ := by
              simp only [get_active_organization, Option.isNone_some,
                Bool.false_eq_true, if_false, hsu, hc]
              rw [if_pos hvis]
              unfold writeBack
              rw [if_neg hw]
            have h2 : get_active_organization db
                ⟨request.user, (get_active_organization db request (some s0) access).session⟩
                (some s0) access
                = ⟨some o, ⟨some o.slug⟩, false, false, false⟩ := by
              rw [h1]
              show get_active_organization db ⟨request.user, ⟨some o.slug⟩⟩ (some s0) access = _
              simp only [get_active_organization, Option.isNone_some,
                Bool.false_eq_true, if_false, hsu, hc]
              rw [if_pos hvis]
              unfold writeBack
              rw [if_pos rfl]
            rw [h2, h1]
            exact ⟨rfl, rfl, rfl, rfl⟩
        · have h1 : get_active_organization db request (some s0) access
              = ⟨none, request.session, false, false, false⟩ := by
            simp only [get_active_organization, Option.isNone_some,
              Bool.false_eq_true, if_false, hsu, hc]
            rw [if_neg hvis]
          have h2 : get_active_organization db
              ⟨request.user, (get_active_organization db request (some s0) access).session⟩
              (some s0) access
              = ⟨none, request.session, false, false, false⟩ := by
            rw [h1]
            show get_active_organization db request (some s0) access = _
            exact h1
          rw [h2, h1]
          exact ⟨rfl, rfl, rfl, rfl⟩
      | none =>
        have h1 : get_active_organization db request (some s0) access
            = ⟨none, request.session, false, false, false⟩ := by
          simp only [get_active_organization, Option.isNone_some,
            Bool.false_eq_true, if_false, hsu, hc]
        have h2 : get_active_organization db
            ⟨request.user, (get_active_organization db request (some s0) access).session⟩
            (some s0) access
            = ⟨none, request.session, false, false, false⟩ := by
          rw [h1]
          show get_active_organization db request (some s0) access = _
          exact h1
        rw [h2, h1]
        exact ⟨rfl, rfl, rfl, rfl⟩
    · have hsu' : request.user.is_superuser = false := by simpa using hsu
      by_cases hse : s0 = ""
      · subst hse
        have h1 : get_active_organization db request (some "") access
            = ⟨none, request.session, false, false, true⟩ := by
          simp only [get_active_organization, Option.isNone_some,
            Bool.false_eq_true, if_false, hsu', resolveFromList]
          rw [if_pos trivial]
          simp only [defaultStep, Bool.false_eq_true, if_false]
        have h2 : get_active_organization db
            ⟨request.user, (get_active_organization db request (some "") access).session⟩
            (some "") access
            = ⟨none, request.session, false, false, true⟩ := by
          rw [h1]
          show get_active_organization db request (some "") access = _
          exact h1
        rw [h2, h1]
        exact ⟨rfl, rfl, rfl, rfl⟩
      · cases hf : (db.get_for_user request.user access).find?
            (fun o => o.slug == s0) with
        | some o =>
          by_cases hw : some o.slug = request.session.activeorg
          · have h1 : get_active_organization db request (some s0) access
                = ⟨some o, request.session, false, false, true⟩ := by
              simp only [get_active_organization, Option.isNone_some,
                Bool.false_eq_true, if_false, hsu', resolveFromList]
              rw [if_neg hse]
              simp only [hf]
              unfold writeBack
              rw [if_pos hw]
            have h2 : get_active_organization db
                ⟨request.user, (get_active_organization db request (some s0) access).session⟩
                (some s0) access
                = ⟨some o, request.session, false, false, true⟩ := by
              rw [h1]
              show get_active_organization db request (some s0) access = _
              exact h1
            rw [h2, h1]
            exact ⟨rfl, rfl, rfl, rfl⟩
          · have h1 : get_active_organization db request (some s0) access
                = ⟨some o, ⟨some o.slug⟩, true, false, true⟩ := by
              simp only [get_active_organization, Option.isNone_some,
                Bool.false_eq_true, if_false, hsu', resolveFromList]
              rw [if_neg hse]
              simp only [hf]
              unfold writeBack
              rw [if_neg hw]
            have h2 : get_active_organization db
                ⟨request.user, (get_active_organization db request (some s0) access).session⟩
                (some s0) access
                = ⟨some o, ⟨some o.slug⟩, false, false, true⟩ := by
              rw [h1]
              show get_active_organization db ⟨request.user, ⟨some o.slug⟩⟩ (some s0) access = _
              simp only [get_active_organization, Option.isNone_some,
                Bool.false_eq_true, if_false, hsu', resolveFromList]
              rw [if_neg hse]
              simp only [hf]
              unfold writeBack
              rw [if_pos rfl]
            rw [h2, h1]
            exact ⟨rfl, rfl, rfl, rfl⟩
        | none =>
          have h1 : get_active_organization db request (some s0) access
              = ⟨none, request.session, false, false, true⟩ := by
            simp only [get_active_organization, Option.isNone_some,
              Bool.false_eq_true, if_false, hsu', resolveFromList]
            rw [if_neg hse]
            simp only [hf, defaultStep, Bool.false_eq_true, if_false]
          have h2 : get_active_organization db
              ⟨request.user, (get_active_organization db request (some s0) access).session⟩
              (some s0) access
              = ⟨none, request.session, false, false, true⟩ := by
            rw [h1]
            show get_active_organization db request (some s0) access = _
            exact h1
          rw [h2, h1]
          exact ⟨rfl, rfl, rfl, rfl⟩
  | none =>
    cases hv : request.session.activeorg with
    | none =>
      cases hh : (db.get_for_user request.user access).head? with
      | some o =>
        have hwne : ¬(some o.slug = request.session.activeorg) := by
          rw [hv]
          exact fun con => Option.noConfusion con
        have h1 : get_active_organization db request none access
            = ⟨some o, ⟨some o.slug⟩, true, false, true⟩ := by
          simp only [get_active_organization, Option.isNone_none, if_pos, hv,
            resolveFromList, defaultStep, if_pos, hh]
          unfold writeBack
          rw [if_neg hwne]
        have homem := get_for_user_mem (head?_mem hh)
        by_cases hsu : request.user.is_superuser = true
        · have hcache : db.get_organization_from_cache o.slug = some o := by
            unfold Database.get_organization_from_cache
            exact find_slug_of_mem db.organizations hnd homem.1
          have h2 : get_active_organization db
              ⟨request.user, (get_active_organization db request none access).session⟩
              none access
              = ⟨some o, ⟨some o.slug⟩, false, false, false⟩ := by
            rw [h1]
            show get_active_organization db ⟨request.user, ⟨some o.slug⟩⟩ none access = _
            simp only [get_active_organization, Option.isNone_none, if_pos,
              hsu, hcache]
            rw [if_pos homem.2]
            unfold writeBack
            rw [if_pos rfl]
          rw [h2, h1]
          exact ⟨rfl, rfl, rfl, rfl⟩
        · have hsu' : request.user.is_superuser = false := by simpa using hsu
          by_cases hoe : o.slug = ""
          · have h2 : get_active_organization db
                ⟨request.user, (get_active_organization db request none access).session⟩
                none access
                = ⟨some o, ⟨some o.slug⟩, false, false, true⟩ := by
              rw [h1]
              show get_active_organization db ⟨request.user, ⟨some o.slug⟩⟩ none access = _
              simp only [get_active_organization, Option.isNone_none, if_pos,
                hsu', resolveFromList, hoe]
              simp only [defaultStep, if_pos, hh]
              unfold writeBack
              simp only [hoe]
              rw [if_pos trivial]
            rw [h2, h1]
            exact ⟨rfl, rfl, rfl, rfl⟩
          · have hfind2 : (db.get_for_user request.user access).find?
                (fun x => x.slug == o.slug) = some o :=
              find_slug_of_mem _ (get_for_user_slug_nodup request.user access hnd)
                (head?_mem hh)
            have h2 : get_active_organization db
                ⟨request.user, (get_active_organization db request none access).session⟩
                none access
                = ⟨some o, ⟨some o.slug⟩, false, false, true⟩ := by
              rw [h1]
              show get_active_organization db ⟨request.user, ⟨some o.slug⟩⟩ none access = _
              simp only [get_active_organization, Option.isNone_none, if_pos,
                hsu', resolveFromList]
              rw [if_neg hoe]
              simp only [hfind2]
              unfold writeBack
              rw [if_pos rfl]
            rw [h2, h1]
            exact ⟨rfl, rfl, rfl, rfl⟩
      | none =>
        have h1 : get_active_organization db request none access
            = ⟨none, request.session, false, false, true⟩ := by
          simp only [get_active_organization, Option.isNone_none, if_pos, hv,
            resolveFromList, defaultStep, if_pos, hh]
        have h2 : get_active_organization db
            ⟨request.user, (get_active_organization db request none access).session⟩
            none access
            = ⟨none, request.session, false, false, true⟩ := by
          rw [h1]
          show get_active_organization db request none access = _
          exact h1
        rw [h2, h1]
        exact ⟨rfl, rfl, rfl, rfl⟩
    | some s =>
      by_cases hsu : request.user.is_superuser = true
      · cases hc : db.get_organization_from_cache s with
        | some o =>
          by_cases hvis : o.status = OrganizationStatus.VISIBLE
          · have ho : o.slug = s := cache_some_slug hc
            have hw : some o.slug = request.session.activeorg := by
              rw [ho, hv]
            have h1 : get_active_organization db request none access
                = ⟨some o, request.session, false, false, false⟩ := by
              simp only [get_active_organization, Option.isNone_none, if_pos,
                hv, hsu, hc]
              rw [if_pos hvis]
              unfold writeBack
              rw [if_pos hw]
            have h2 : get_active_organization db
                ⟨request.user, (get_active_organization db request none access).session⟩
                none access
                = ⟨some o, request.session, false, false, false⟩ := by
              rw [h1]
              show get_active_organization db request none access = _
              exact h1
            rw [h2, h1]
            exact ⟨rfl, rfl, rfl, rfl⟩
          · have h1 : get_active_organization db request none access
                = ⟨none, request.session, false, false, false⟩ := by
              simp only [get_active_organization, Option.isNone_none, if_pos,
                hv, hsu, hc]
              rw [if_neg hvis]
            have h2 : get_active_organization db
                ⟨request.user, (get_active_organization db request none access).session⟩
                none access
                = ⟨none, request.session, false, false, false⟩ := by
              rw [h1]
              show get_active_organization db request none access = _
              exact h1
            rw [h2, h1]
            exact ⟨rfl, rfl, rfl, rfl⟩
        | none =>
          have h1 : get_active_organization db request none access
              = ⟨none, request.session, false, false, false⟩ := by
            simp only [get_active_organization, Option.isNone_none, if_pos,
              hv, hsu, hc]
          have h2 : get_active_organization db
              ⟨request.user, (get_active_organization db request none access).session⟩
              none access
              = ⟨none, request.session, false, false, false⟩ := by
            rw [h1]
            show get_active_organization db request none access = _
            exact h1
          rw [h2, h1]
          exact ⟨rfl, rfl, rfl, rfl⟩
      · have hsu' : request.user.is_superuser = false := by simpa using hsu
        by_cases hse : s = ""
        · subst hse
          cases hh : (db.get_for_user request.user access).head? with
          | some o =>
            by_cases hoe : o.slug = ""
            · have hw : some o.slug = request.session.activeorg := by
                rw [hoe, hv]
              have h1 : get_active_organization db request none access
                  = ⟨some o, request.session, false, false, true⟩ := by
                simp only [get_active_organization, Option.isNone_none, if_pos,
                  hv, hsu', resolveFromList]
                simp only [defaultStep, if_pos, hh]
                unfold writeBack
                rw [if_pos hw]
              have h2 : get_active_organization db
                  ⟨request.user, (get_active_organization db request none access).session⟩
                  none access
                  = ⟨some o, request.session, false, false, true⟩ := by
                rw [h1]
                show get_active_organization db request none access = _
                exact h1
              rw [h2, h1]
              exact ⟨rfl, rfl, rfl, rfl⟩
            · have hwne : ¬(some o.slug = request.session.activeorg) := by
                rw [hv]
                exact fun con => hoe (Option.some.inj con)
              have h1 : get_active_organization db request none access
                  = ⟨some o, ⟨some o.slug⟩, true, false, true⟩ := by
                simp only [get_active_organization, Option.isNone_none, if_pos,
                  hv, hsu', resolveFromList]
                simp only [defaultStep, if_pos, hh]
                unfold writeBack
                rw [if_neg hwne]
              have hfind2 : (db.get_for_user request.user access).find?
                  (fun x => x.slug == o.slug) = some o :=
                find_slug_of_mem _ (get_for_user_slug_nodup request.user access hnd)
                  (head?_mem hh)
              have h2 : get_active_organization db
                  ⟨request.user, (get_active_organization db request none access).session⟩
                  none access
                  = ⟨some o, ⟨some o.slug⟩, false, false, true⟩ := by
                rw [h1]
                show get_active_organization db ⟨request.user, ⟨some o.slug⟩⟩ none access = _
                simp only [get_active_organization, Option.isNone_none, if_pos,
                  hsu', resolveFromList]
                rw [if_neg hoe]
                simp only [hfind2]
                unfold writeBack
                rw [if_pos rfl]
              rw [h2, h1]
              exact ⟨rfl, rfl, rfl, rfl⟩
          | none =>
            have h1 : get_active_organization db request none access
                = ⟨none, request.session, false, false, true⟩ := by
              simp only [get_active_organization, Option.isNone_none, if_pos,
                hv, hsu', resolveFromList]
              simp only [defaultStep, if_pos, hh]
            have h2 : get_active_organization db
                ⟨request.user, (get_active_organization db request none access).session⟩
                none access
                = ⟨none, request.session, false, false, true⟩ := by
              rw [h1]
              show get_active_organization db request none access = _
              exact h1
            rw [h2, h1]
            exact ⟨rfl, rfl, rfl, rfl⟩
        · cases hf : (db.get_for_user request.user access).find?
              (fun o => o.slug == s) with
          | some o =>
            have ho : o.slug = s := find?_some_slug hf
            have hw : some o.slug = request.session.activeorg := by
              rw [ho, hv]
            have h1 : get_active_organization db request none access
                = ⟨some o, request.session, false, false, true⟩ := by
              simp only [get_active_organization, Option.isNone_none, if_pos,
                hv, hsu', resolveFromList]
              rw [if_neg hse]
              simp only [hf]
              unfold writeBack
              rw [if_pos hw]
            have h2 : get_active_organization db
                ⟨request.user, (get_active_organization db request none access).session⟩
                none access
                = ⟨some o, request.session, false, false, true⟩ := by
              rw [h1]
              show get_active_organization db request none access = _
              exact h1
            rw [h2, h1]
            exact ⟨rfl, rfl, rfl, rfl⟩
          | none =>
            cases hh : (db.get_for_user request.user access).head? with
            | some o =>
              have hwne : ¬(some o.slug = (Session.mk none).activeorg) :=
                fun con => Option.noConfusion con
              have h1 : get_active_organization db request none access
                  = ⟨some o, ⟨some o.slug⟩, true, true, true⟩ := by
                simp only [get_active_organization, Option.isNone_none, if_pos,
                  hv, hsu', resolveFromList]
                rw [if_neg hse]
                simp only [hf, defaultStep, if_pos, hh]
                unfold writeBack
                rw [if_neg hwne]
              by_cases hoe : o.slug = ""
              · have h2 : get_active_organization db
                    ⟨request.user, (get_active_organization db request none access).session⟩
                    none access
                    = ⟨some o, ⟨some o.slug⟩, false, false, true⟩ := by
                  rw [h1]
                  show get_active_organization db ⟨request.user, ⟨some o.slug⟩⟩ none access = _
                  simp only [get_active_organization, Option.isNone_none, if_pos,
                    hsu', resolveFromList, hoe]
                  simp only [defaultStep, if_pos, hh]
                  unfold writeBack
                  simp only [hoe]
                  rw [if_pos trivial]
                rw [h2, h1]
                exact ⟨rfl, rfl, rfl, rfl⟩
              · have hfind2 : (db.get_for_user request.user access).find?
                    (fun x => x.slug == o.slug) = some o :=
                  find_slug_of_mem _ (get_for_user_slug_nodup request.user access hnd)
                    (head?_mem hh)
                have h2 : get_active_organization db
                    ⟨request.user, (get_active_organization db request none access).session⟩
                    none access
                    = ⟨some o, ⟨some o.slug⟩, false, false, true⟩ := by
                  rw [h1]
                  show get_active_organization db ⟨request.user, ⟨some o.slug⟩⟩ none access = _
                  simp only [get_active_organization, Option.isNone_none, if_pos,
                    hsu', resolveFromList]
                  rw [if_neg hoe]
                  simp only [hfind2]
                  unfold writeBack
                  rw [if_pos rfl]
                rw [h2, h1]
                exact ⟨rfl, rfl, rfl, rfl⟩
            | none =>
              have h1 : get_active_organization db request none access
                  = ⟨none, ⟨none⟩, false, true, true⟩ := by
                simp only [get_active_organization, Option.isNone_none, if_pos,
                  hv, hsu', resolveFromList]
                rw [if_neg hse]
                simp only [hf, defaultStep, if_pos, hh]
              have h2 : get_active_organization db
                  ⟨request.user, (get_active_organization db request none access).session⟩
                  none access
                  = ⟨none, ⟨none⟩, false, false, true⟩ := by
                rw [h1]
                show get_active_organization db ⟨request.user, ⟨none⟩⟩ none access = _
                simp only [get_active_organization, Option.isNone_none, if_pos,
                  hsu', resolveFromList, defaultStep, hh]
              rw [h2, h1]
              exact ⟨rfl, rfl, rfl, rfl⟩

theorem claim_C9_witness :
    (get_active_organization dbAcme
        ⟨reqGhost.user, (get_active_organization dbAcme reqGhost none none).session⟩
        none none).result
      = (get_active_organization dbAcme reqGhost none none).result :=
  (claim_C9 dbAcme reqGhost none none (by unfold slugsUnique; decide)).1

theorem claim_C4_witness :
    (get_active_organization dbAcme reqGhost none none).wrote = false :=
  (claim_C4 dbAcme reqGhost none none).2.1 (by decide)

end Sentry
